import Mathlib

/-!
Verification of the inventory-aware order lifecycle of a NestJS e-commerce
backend: the TTL cache (`CacheService`), the product stock ledger
(`ProductsService.updateStock`), the order state machine
(`OrdersService.create` / `updateStatus` / `cancel`) and the cache-fronted
user lookup (`UsersService`).  Stateful TypeScript services are embedded as
explicit state-passing functions over association-list stores; thrown
`NotFoundException` / `BadRequestException` become an `Except` error value
returned together with the state at the moment of the throw (earlier writes
are kept, as in the source, where thrown exceptions do not roll back
completed awaits).
-/

/-- Entries of the JS `Map<string, { value, expiry }>` backing `CacheService`:
key, value, absolute expiry in milliseconds. -/
abbrev EntryMap (α : Type) := List (String × α × Nat)

/-- Lookup in the backing map (JS `Map.get`). -/
def mapGet (c : EntryMap α) (k : String) : Option (α × Nat) :=
  (c.find? (fun e => e.1 == k)).map (fun e => e.2)

/-- JS `Map.set`: overwrite the entry in place when the key is present,
append it otherwise. -/
def mapSet (c : EntryMap α) (k : String) (v : α × Nat) : EntryMap α :=
  if c.any (fun e => e.1 == k) then c.map (fun e => if e.1 == k then (k, v) else e)
  else c ++ [(k, v)]

/-- JS `Map.delete`: drop the entry with the given key, no-op when absent. -/
def mapDelete (c : EntryMap α) (k : String) : EntryMap α :=
  c.filter (fun e => !(e.1 == k))

namespace CacheService

/-- `set(key, value, ttl)`: stores the value with `expiry = Date.now() + ttl * 1000`,
unconditionally overwriting any existing entry. -/
def set (c : EntryMap α) (now : Nat) (key : String) (value : α) (ttl : Nat) : EntryMap α :=
  mapSet c key (value, now + ttl * 1000)

/-- `get(key)`: `null` when absent; when `Date.now() > item.expiry` the stale
entry is deleted and `null` returned; otherwise the value.  Returns the
result together with the cache state after the call. -/
def get (c : EntryMap α) (now : Nat) (key : String) : Option α × EntryMap α :=
  match mapGet c key with
  | none => (none, c)
  | some item => if now > item.2 then (none, mapDelete c key) else (some item.1, c)

/-- `delete(key)`. -/
def delete (c : EntryMap α) (key : String) : EntryMap α :=
  mapDelete c key

/-- `clear()`. -/
def clear (α : Type) : EntryMap α := []

/-- `has(key)`: same expiry semantics as `get`, returning a boolean. -/
def has (c : EntryMap α) (now : Nat) (key : String) : Bool × EntryMap α :=
  match mapGet c key with
  | none => (false, c)
  | some item => if now > item.2 then (false, mapDelete c key) else (true, c)

end CacheService

/-- Product entity (`product.entity.ts`): fields the core logic reads.
`price` is the fixed-precision decimal in its smallest unit, `stock` the
inventory count (a TS `number`, hence `Int` here; the ledger clamps it). -/
structure Product where
  id : Nat
  price : Int
  stock : Int
  isAvailable : Bool
deriving DecidableEq, Repr

/-- The five order states admitted by `UpdateOrderStatusDto`'s `@IsEnum`. -/
inductive OrderStatus
  | pending
  | confirmed
  | shipped
  | delivered
  | cancelled
deriving DecidableEq, Repr

/-- Order entity (`order.entity.ts`): fields the core logic reads. -/
structure Order where
  id : Nat
  userId : Nat
  productId : Nat
  quantity : Int
  totalPrice : Int
  status : OrderStatus
deriving DecidableEq, Repr

/-- User entity (`user.entity.ts`): fields the core logic reads.
`isDeleted` defaults to `false` on creation. -/
structure User where
  id : Nat
  email : String
  isDeleted : Bool
deriving DecidableEq, Repr

/-- TypeORM `repository.findOne({ where: { id } })` over a row store. -/
def findRow (key : α → Nat) (db : List α) (id : Nat) : Option α :=
  db.find? (fun x => key x == id)

/-- TypeORM `repository.save(entity)`: update the row with the entity's
primary key when present, insert it otherwise. -/
def saveRow (key : α → Nat) (db : List α) (x : α) : List α :=
  if db.any (fun y => key y == key x) then db.map (fun y => if key y == key x then x else y)
  else db ++ [x]

/-- The two exception classes thrown by the services, with their messages. -/
inductive HttpError
  | notFoundException (msg : String)
  | badRequestException (msg : String)
deriving DecidableEq, Repr

namespace ProductsService

/-- `ProductsService.findOne(id)`: row lookup, `NotFoundException` when absent. -/
def findOne (db : List Product) (id : Nat) : Except HttpError Product :=
  match findRow Product.id db id with
  | none => .error (.notFoundException ("Product with ID " ++ toString id ++ " not found"))
  | some p => .ok p

/-- `ProductsService.updateStock(id, quantity)` (TypeORM variant):
`product.stock += quantity; if (product.stock < 0) product.stock = 0;` then save. -/
def updateStock (db : List Product) (id : Nat) (quantity : Int) :
    Except HttpError (Product × List Product) :=
  match findOne db id with
  | .error e => .error e
  | .ok product =>
    let bumped := product.stock + quantity
    let clamped := if bumped < 0 then 0 else bumped
    let p := { product with stock := clamped }
    .ok (p, saveRow Product.id db p)

/-- `ProductsService.updateStock(id, quantity)` (Mongoose variant):
`newStock = product.stock + quantity`, then `findByIdAndUpdate` with
`$set: { stock: newStock < 0 ? 0 : newStock }`, failing when the row
vanished in between. -/
def updateStockMongoose (db : List Product) (id : Nat) (quantity : Int) :
    Except HttpError (Product × List Product) :=
  match findOne db id with
  | .error e => .error e
  | .ok product =>
    let newStock := product.stock + quantity
    let toSet := if newStock < 0 then 0 else newStock
    match findRow Product.id db id with
    | none => .error (.notFoundException ("Product with ID " ++ toString id ++ " not found"))
    | some row =>
      let p := { row with stock := toSet }
      .ok (p, saveRow Product.id db p)

/-- `UpdateProductDto`: optional patch fields merged by `Object.assign`. -/
structure UpdateProductDto where
  price : Option Int := none
  stock : Option Int := none
  isAvailable : Option Bool := none
deriving Repr

/-- `ProductsService.update(id, dto)`: load, merge patch fields, save. -/
def update (db : List Product) (id : Nat) (dto : UpdateProductDto) :
    Except HttpError (Product × List Product) :=
  match findOne db id with
  | .error e => .error e
  | .ok product =>
    let p : Product :=
      { product with
        price := dto.price.getD product.price
        stock := dto.stock.getD product.stock
        isAvailable := dto.isAvailable.getD product.isAvailable }
    .ok (p, saveRow Product.id db p)

end ProductsService

/-- Whole-system state: the three row stores, the one `CacheService`
instance (which only ever holds `User` payloads, under keys `user:{id}`),
the clock `Date.now()` in milliseconds, and the id generators of the two
tables that get inserts in the modelled flows. -/
structure SysState where
  users : List User
  products : List Product
  orders : List Order
  cache : EntryMap User
  now : Nat
  nextUserId : Nat
  nextOrderId : Nat
deriving DecidableEq, Repr

/-- The cache key string `user:${id}` used by `UsersService`. -/
def userKey (id : Nat) : String := "user:" ++ toString id

/-- `CreateUserDto`: only the field the embedding tracks. -/
structure CreateUserDto where
  email : String
deriving Repr

namespace UsersService

/-- `UsersService.findOne(id)`: check cache first and return the cached user
on a hit; on a miss query the store, throw `NotFoundException` when absent,
otherwise cache the user with TTL 3600 and return it. -/
def findOne (s : SysState) (id : Nat) : Except HttpError User × SysState :=
  match CacheService.get s.cache s.now (userKey id) with
  | (some cached, c) => (.ok cached, { s with cache := c })
  | (none, c) =>
    match findRow User.id s.users id with
    | none =>
      (.error (.notFoundException ("User with ID " ++ toString id ++ " not found")),
       { s with cache := c })
    | some user =>
      (.ok user, { s with cache := CacheService.set c s.now (userKey id) user 3600 })

/-- `UsersService.create(dto)`: build the entity, save it, then eagerly
cache it under `user:{id}` with TTL 3600. -/
def create (s : SysState) (dto : CreateUserDto) : User × SysState :=
  let user : User := { id := s.nextUserId, email := dto.email, isDeleted := false }
  let savedUsers := saveRow User.id s.users user
  let c := CacheService.set s.cache s.now (userKey user.id) user 3600
  (user, { s with users := savedUsers, cache := c, nextUserId := s.nextUserId + 1 })

/-- `UsersService.remove(id)`: soft delete — load via `findOne`, set
`isDeleted = true`, save, then delete the cache entry. -/
def remove (s : SysState) (id : Nat) : Except HttpError Unit × SysState :=
  match findOne s id with
  | (.error e, s1) => (.error e, s1)
  | (.ok user, s1) =>
    let u := { user with isDeleted := true }
    let s2 := { s1 with users := saveRow User.id s1.users u }
    (.ok (), { s2 with cache := CacheService.delete s2.cache (userKey id) })

end UsersService

namespace OrdersService

/-- `OrdersService.findOne(id)` restricted to the row lookup (the eager
relations do not affect the fields the core logic reads). -/
def findOne (db : List Order) (id : Nat) : Except HttpError Order :=
  match findRow Order.id db id with
  | none => .error (.notFoundException ("Order with ID " ++ toString id ++ " not found"))
  | some o => .ok o

/-- `OrdersService.create(dto)`: validate the user (cache-fronted lookup),
validate the product, check stock, snapshot `totalPrice = price * quantity`,
save the order with status `pending`, then decrement stock by `quantity`
through the ledger. -/
def create (s : SysState) (userId productId : Nat) (quantity : Int) :
    Except HttpError Order × SysState :=
  match UsersService.findOne s userId with
  | (.error e, s1) => (.error e, s1)
  | (.ok _, s1) =>
    match ProductsService.findOne s1.products productId with
    | .error e => (.error e, s1)
    | .ok product =>
      if product.stock < quantity then
        (.error (.badRequestException
          ("Insufficient stock. Available: " ++ toString product.stock ++
           ", Requested: " ++ toString quantity)), s1)
      else
        let totalPrice := product.price * quantity
        let order : Order :=
          { id := s1.nextOrderId, userId := userId, productId := productId,
            quantity := quantity, totalPrice := totalPrice, status := .pending }
        let s2 := { s1 with orders := s1.orders ++ [order], nextOrderId := s1.nextOrderId + 1 }
        match ProductsService.updateStock s2.products product.id (-quantity) with
        | .error e => (.error e, s2)
        | .ok (_, products2) => (.ok order, { s2 with products := products2 })

/-- `OrdersService.updateStatus(id, dto)`: load the order, overwrite its
status with the requested one, save.  No transition check, no stock touch. -/
def updateStatus (s : SysState) (id : Nat) (status : OrderStatus) :
    Except HttpError Order × SysState :=
  match findOne s.orders id with
  | .error e => (.error e, s)
  | .ok order =>
    let o := { order with status := status }
    (.ok o, { s with orders := saveRow Order.id s.orders o })

/-- `OrdersService.cancel(id)`: load the order; reject `delivered` and
`cancelled`; otherwise restore stock by `quantity` through the ledger and
save the order with status `cancelled`. -/
def cancel (s : SysState) (id : Nat) : Except HttpError Order × SysState :=
  match findOne s.orders id with
  | .error e => (.error e, s)
  | .ok order =>
    if order.status = .delivered then
      (.error (.badRequestException "Cannot cancel a delivered order"), s)
    else if order.status = .cancelled then
      (.error (.badRequestException "Order is already cancelled"), s)
    else
      match ProductsService.updateStock s.products order.productId order.quantity with
      | .error e => (.error e, s)
      | .ok (_, products2) =>
        let o := { order with status := .cancelled }
        (.ok o, { s with products := products2, orders := saveRow Order.id s.orders o })

end OrdersService

/-- The stock-adjust route at system level: the controller calls only
`ProductsService.updateStock`, which has no cache dependency, so the cache
field is carried through untouched. -/
def sysUpdateStock (s : SysState) (id : Nat) (quantity : Int) :
    Except HttpError Product × SysState :=
  match ProductsService.updateStock s.products id quantity with
  | .error e => (.error e, s)
  | .ok (p, db) => (.ok p, { s with products := db })

/-- The product-update route at system level: the controller calls only
`ProductsService.update`, which touches neither orders nor the cache. -/
def sysUpdateProduct (s : SysState) (id : Nat) (dto : ProductsService.UpdateProductDto) :
    Except HttpError Product × SysState :=
  match ProductsService.update s.products id dto with
  | .error e => (.error e, s)
  | .ok (p, db) => (.ok p, { s with products := db })

/-! Helper lemmas about the row store and the cache's backing map. -/

theorem findRow_key_eq (key : α → Nat) (db : List α) (id : Nat) (x : α)
    (h : findRow key db id = some x) : key x = id := by
  have := List.find?_some h
  exact beq_iff_eq.mp this

theorem find?_map_replace_self (key : α → Nat) (l : List α) (x : α)
    (h : l.any (fun y => key y == key x) = true) :
    (l.map (fun y => if (key y == key x) = true then x else y)).find?
      (fun y => key y == key x) = some x := by
  induction l with
  | nil => simp at h
  | cons a l ih =>
    by_cases ha : (key a == key x) = true
    · simp [List.find?, ha]
    · simp only [List.any_cons, ha, Bool.false_or] at h
      simpa [List.find?, ha] using ih h

theorem find?_map_replace_other (key : α → Nat) (l : List α) (x : α) (i : Nat)
    (hne : i ≠ key x) :
    (l.map (fun y => if (key y == key x) = true then x else y)).find?
      (fun y => key y == i) = l.find? (fun y => key y == i) := by
  induction l with
  | nil => rfl
  | cons a l ih =>
    rw [List.map_cons]
    by_cases ha : (key a == key x) = true
    · have hax : key a = key x := beq_iff_eq.mp ha
      have h1 : ¬((key x == i) = true) := fun hxi => hne (beq_iff_eq.mp hxi).symm
      have h2 : ¬((key a == i) = true) := by
        rw [hax]
        exact h1
      rw [if_pos ha]
      rw [List.find?_cons_of_neg (p := fun y => key y == i) _ h1,
        List.find?_cons_of_neg (p := fun y => key y == i) _ h2]
      exact ih
    · rw [if_neg ha]
      by_cases hai : (key a == i) = true
      · rw [List.find?_cons_of_pos (p := fun y => key y == i) _ hai,
          List.find?_cons_of_pos (p := fun y => key y == i) _ hai]
      · rw [List.find?_cons_of_neg (p := fun y => key y == i) _ hai,
          List.find?_cons_of_neg (p := fun y => key y == i) _ hai]
        exact ih

theorem findRow_saveRow_self (key : α → Nat) (db : List α) (x : α) :
    findRow key (saveRow key db x) (key x) = some x := by
  rw [saveRow]
  by_cases h : db.any (fun y => key y == key x) = true
  · rw [if_pos h]
    exact find?_map_replace_self key db x h
  · rw [if_neg h]
    unfold findRow
    rw [List.find?_append]
    have hnone : List.find? (fun y => key y == key x) db = none := by
      rw [List.find?_eq_none]
      exact fun y hy hk => h (List.any_eq_true.mpr ⟨y, hy, hk⟩)
    simp [hnone, List.find?]

theorem findRow_saveRow_other (key : α → Nat) (db : List α) (x : α) (i : Nat)
    (hne : i ≠ key x) :
    findRow key (saveRow key db x) i = findRow key db i := by
  rw [saveRow]
  by_cases h : db.any (fun y => key y == key x) = true
  · rw [if_pos h]
    exact find?_map_replace_other key db x i hne
  · rw [if_neg h]
    unfold findRow
    rw [List.find?_append]
    have hx : (key x == i) = false := by
      rw [beq_eq_false_iff_ne]
      exact fun hxi => hne hxi.symm
    simp [List.find?, hx]

theorem find?_entry_replace_self (c : EntryMap α) (k : String) (v : α × Nat)
    (h : c.any (fun e => e.1 == k) = true) :
    (c.map (fun e => if (e.1 == k) = true then (k, v) else e)).find?
      (fun e => e.1 == k) = some (k, v) := by
  induction c with
  | nil => simp at h
  | cons a l ih =>
    by_cases ha : (a.1 == k) = true
    · simp [List.find?, ha]
    · simp only [List.any_cons, ha, Bool.false_or] at h
      simpa [List.find?, ha] using ih h

theorem find?_entry_replace_other (c : EntryMap α) (k k' : String) (v : α × Nat)
    (hne : k' ≠ k) :
    (c.map (fun e => if (e.1 == k) = true then (k, v) else e)).find?
      (fun e => e.1 == k') = c.find? (fun e => e.1 == k') := by
  induction c with
  | nil => rfl
  | cons a l ih =>
    rw [List.map_cons]
    by_cases ha : (a.1 == k) = true
    · have h1 : ¬((k == k') = true) := fun hk => hne (beq_iff_eq.mp hk).symm
      have h2 : ¬((a.1 == k') = true) := by
        have hak : a.1 = k := beq_iff_eq.mp ha
        rw [hak]
        exact h1
      rw [if_pos ha]
      rw [List.find?_cons_of_neg (p := fun e : String × α × Nat => e.1 == k') _ h1,
        List.find?_cons_of_neg (p := fun e : String × α × Nat => e.1 == k') _ h2]
      exact ih
    · rw [if_neg ha]
      by_cases ha' : (a.1 == k') = true
      · rw [List.find?_cons_of_pos (p := fun e : String × α × Nat => e.1 == k') _ ha',
          List.find?_cons_of_pos (p := fun e : String × α × Nat => e.1 == k') _ ha']
      · rw [List.find?_cons_of_neg (p := fun e : String × α × Nat => e.1 == k') _ ha',
          List.find?_cons_of_neg (p := fun e : String × α × Nat => e.1 == k') _ ha']
        exact ih

theorem mapGet_mapSet_self (c : EntryMap α) (k : String) (v : α × Nat) :
    mapGet (mapSet c k v) k = some v := by
  rw [mapSet]
  by_cases h : c.any (fun e => e.1 == k) = true
  · rw [if_pos h]
    unfold mapGet
    rw [find?_entry_replace_self c k v h]
    rfl
  · rw [if_neg h]
    unfold mapGet
    rw [List.find?_append]
    have hnone : List.find? (fun e => e.1 == k) c = none := by
      rw [List.find?_eq_none]
      exact fun e he hk => h (List.any_eq_true.mpr ⟨e, he, hk⟩)
    simp [hnone, List.find?]

theorem mapGet_mapSet_other (c : EntryMap α) (k k' : String) (v : α × Nat)
    (hne : k' ≠ k) :
    mapGet (mapSet c k v) k' = mapGet c k' := by
  rw [mapSet]
  by_cases h : c.any (fun e => e.1 == k) = true
  · rw [if_pos h]
    unfold mapGet
    rw [find?_entry_replace_other c k k' v hne]
  · rw [if_neg h]
    unfold mapGet
    rw [List.find?_append]
    have hk : ((k == k') = false) := by
      rw [beq_eq_false_iff_ne]
      exact fun hkk => hne hkk.symm
    simp [List.find?, hk]

theorem mapGet_mapDelete_self (c : EntryMap α) (k : String) :
    mapGet (mapDelete c k) k = none := by
  unfold mapGet mapDelete
  induction c with
  | nil => rfl
  | cons a l ih =>
    by_cases ha : (a.1 == k) = true
    · simp only [List.filter, ha]
      exact ih
    · have ha' : (a.1 == k) = false := by simpa using ha
      simp only [List.filter, ha', Bool.not_false]
      rw [List.find?_cons_of_neg (p := fun e : String × α × Nat => e.1 == k) _ ha]
      exact ih

theorem mapGet_mapDelete_other (c : EntryMap α) (k k' : String) (hne : k' ≠ k) :
    mapGet (mapDelete c k) k' = mapGet c k' := by
  unfold mapGet mapDelete
  induction c with
  | nil => rfl
  | cons a l ih =>
    by_cases ha : (a.1 == k) = true
    · have h2 : ((a.1 == k') = false) := by
        rw [beq_eq_false_iff_ne, beq_iff_eq.mp ha]
        exact fun hkk => hne hkk.symm
      simpa [List.filter, ha, List.find?, h2] using ih
    · by_cases ha' : (a.1 == k') = true
      · simp [List.filter, ha, List.find?, ha']
      · simpa [List.filter, ha, List.find?, ha'] using ih

theorem cacheGet_hit_frame (c : EntryMap α) (now : Nat) (k : String) (v : α)
    (h : (CacheService.get c now k).1 = some v) :
    CacheService.get c now k = (some v, c) := by
  cases hm : mapGet c k with
  | none => simp [CacheService.get, hm] at h
  | some item =>
    by_cases ht : now > item.2
    · simp [CacheService.get, hm, ht] at h
    · simp only [CacheService.get, hm] at h ⊢
      rw [if_neg ht] at h ⊢
      simp only [Option.some.injEq] at h
      rw [h]

theorem usersFindOne_hit (s : SysState) (id : Nat) (u : User)
    (h : (CacheService.get s.cache s.now (userKey id)).1 = some u) :
    UsersService.findOne s id = (.ok u, s) := by
  have hfull := cacheGet_hit_frame s.cache s.now (userKey id) u h
  unfold UsersService.findOne
  rw [hfull]

theorem usersFindOne_miss_found (s : SysState) (id : Nat) (u : User)
    (hmiss : (CacheService.get s.cache s.now (userKey id)).1 = none)
    (hdb : findRow User.id s.users id = some u) :
    UsersService.findOne s id =
      (.ok u,
       { s with cache := CacheService.set (CacheService.get s.cache s.now (userKey id)).2
                           s.now (userKey id) u 3600 }) := by
  unfold UsersService.findOne
  rcases hg : CacheService.get s.cache s.now (userKey id) with ⟨o, c⟩
  rw [hg] at hmiss
  simp only at hmiss
  subst hmiss
  rw [hdb]

theorem usersFindOne_miss_absent (s : SysState) (id : Nat)
    (hmiss : (CacheService.get s.cache s.now (userKey id)).1 = none)
    (hdb : findRow User.id s.users id = none) :
    UsersService.findOne s id =
      (.error (.notFoundException ("User with ID " ++ toString id ++ " not found")),
       { s with cache := (CacheService.get s.cache s.now (userKey id)).2 }) := by
  unfold UsersService.findOne
  rcases hg : CacheService.get s.cache s.now (userKey id) with ⟨o, c⟩
  rw [hg] at hmiss
  simp only at hmiss
  subst hmiss
  rw [hdb]

theorem usersFindOne_frame (s : SysState) (id : Nat) :
    (UsersService.findOne s id).2.users = s.users ∧
    (UsersService.findOne s id).2.products = s.products ∧
    (UsersService.findOne s id).2.orders = s.orders ∧
    (UsersService.findOne s id).2.now = s.now ∧
    (UsersService.findOne s id).2.nextUserId = s.nextUserId ∧
    (UsersService.findOne s id).2.nextOrderId = s.nextOrderId := by
  unfold UsersService.findOne
  rcases hg : CacheService.get s.cache s.now (userKey id) with ⟨o, c⟩
  cases o with
  | some u => simp
  | none => cases hdb : findRow User.id s.users id <;> simp

theorem usersFindOne_cache_other (s : SysState) (id : Nat) (k : String)
    (hk : k ≠ userKey id) :
    mapGet (UsersService.findOne s id).2.cache k = mapGet s.cache k := by
  have hget : mapGet (CacheService.get s.cache s.now (userKey id)).2 k = mapGet s.cache k := by
    cases hm : mapGet s.cache (userKey id) with
    | none => simp [CacheService.get, hm]
    | some item =>
      by_cases ht : s.now > item.2
      · simp only [CacheService.get, hm, ht, if_true]
        exact mapGet_mapDelete_other s.cache (userKey id) k hk
      · simp [CacheService.get, hm, ht]
  unfold UsersService.findOne
  rcases hg : CacheService.get s.cache s.now (userKey id) with ⟨o, c⟩
  rw [hg] at hget
  cases o with
  | some u => simpa using hget
  | none =>
    cases hdb : findRow User.id s.users id with
    | none => simpa using hget
    | some u =>
      simp only
      rw [CacheService.set, mapGet_mapSet_other c (userKey id) k _ hk]
      exact hget

theorem ordersCreate_orders_mono (s : SysState) (userId productId : Nat) (quantity : Int)
    (i : Nat) (o : Order) (h : findRow Order.id s.orders i = some o) :
    findRow Order.id (OrdersService.create s userId productId quantity).2.orders i = some o := by
  have hor : (UsersService.findOne s userId).2.orders = s.orders :=
    (usersFindOne_frame s userId).2.2.1
  unfold OrdersService.create
  rcases hf : UsersService.findOne s userId with ⟨r, s1⟩
  rw [hf] at hor
  simp only at hor
  have happ : ∀ o2 : Order, findRow Order.id (s1.orders ++ [o2]) i = some o := by
    intro o2
    unfold findRow at h ⊢
    rw [List.find?_append, hor, h]
    rfl
  cases r with
  | error e => simpa [hor] using h
  | ok u =>
    cases hp : ProductsService.findOne s1.products productId with
    | error e => simpa [hp, hor] using h
    | ok product =>
      by_cases hq : product.stock < quantity
      · simp only [hp, if_pos hq]
        simpa [hor] using h
      · simp only [hp, if_neg hq]
        cases hu : ProductsService.updateStock s1.products product.id (-quantity) with
        | error e => simp only [hu]; exact happ _
        | ok pr => simp only [hu]; exact happ _

theorem ordersCreate_cache (s : SysState) (userId productId : Nat) (quantity : Int) :
    (OrdersService.create s userId productId quantity).2.cache =
      (UsersService.findOne s userId).2.cache := by
  unfold OrdersService.create
  rcases hf : UsersService.findOne s userId with ⟨r, s1⟩
  cases r with
  | error e => rfl
  | ok u =>
    cases hp : ProductsService.findOne s1.products productId with
    | error e => simp [hp]
    | ok product =>
      by_cases hq : product.stock < quantity
      · simp [hp, hq]
      · simp only [hp, if_neg hq]
        cases hu : ProductsService.updateStock s1.products product.id (-quantity) with
        | error e => simp [hu]
        | ok pr => simp [hu]

theorem clamp_eq_max (x : Int) : (if x < 0 then 0 else x) = max 0 x := by
  rcases lt_or_le x 0 with hx | hx
  · rw [if_pos hx, max_eq_left hx.le]
  · rw [if_neg (not_lt.mpr hx), max_eq_right hx]

/-- Claim C1: for every product and every call to the stock adjust operation
(`ProductsService.updateStock`, both the TypeORM and the Mongoose variant)
with any integer delta, the call succeeds and the persisted stock equals
`max 0 (previous stock + delta)`; in particular the stock is nonnegative
immediately after every adjust call. -/
theorem updateStock_clamps_nonneg (db : List Product) (id : Nat) (quantity : Int)
    (product : Product) (h : findRow Product.id db id = some product) :
    (∃ p db2, ProductsService.updateStock db id quantity = .ok (p, db2) ∧
      p.stock = max 0 (product.stock + quantity) ∧ 0 ≤ p.stock ∧
      findRow Product.id db2 id = some p) ∧
    (∃ p db2, ProductsService.updateStockMongoose db id quantity = .ok (p, db2) ∧
      p.stock = max 0 (product.stock + quantity) ∧ 0 ≤ p.stock ∧
      findRow Product.id db2 id = some p) := by
  have hid : product.id = id := findRow_key_eq Product.id db id product h
  have hfo : ProductsService.findOne db id = .ok product := by
    unfold ProductsService.findOne
    rw [h]
  have h2 := findRow_saveRow_self Product.id db
    { product with stock := if product.stock + quantity < 0 then 0 else product.stock + quantity }
  have h3 : findRow Product.id
      (saveRow Product.id db
        { product with stock := if product.stock + quantity < 0 then 0 else product.stock + quantity })
      id =
      some { product with
        stock := if product.stock + quantity < 0 then 0 else product.stock + quantity } := by
    rw [← hid]
    exact h2
  constructor
  · refine ⟨_, _, ?_, by simp [clamp_eq_max], by simp [clamp_eq_max], h3⟩
    unfold ProductsService.updateStock
    rw [hfo]
  · refine ⟨_, _, ?_, by simp [clamp_eq_max], by simp [clamp_eq_max], h3⟩
    unfold ProductsService.updateStockMongoose
    rw [hfo, h]

/-- Witness for C1: adjusting a product with stock 5 by delta -9 clamps the
persisted stock to 0. -/
theorem updateStock_clamps_nonneg_witness :
    (∃ p db2, ProductsService.updateStock [⟨1, 100, 5, true⟩] 1 (-9) = .ok (p, db2) ∧
      p.stock = max 0 (5 + (-9)) ∧ 0 ≤ p.stock ∧ findRow Product.id db2 1 = some p) ∧
    (∃ p db2, ProductsService.updateStockMongoose [⟨1, 100, 5, true⟩] 1 (-9) = .ok (p, db2) ∧
      p.stock = max 0 (5 + (-9)) ∧ 0 ≤ p.stock ∧ findRow Product.id db2 1 = some p) :=
  updateStock_clamps_nonneg [⟨1, 100, 5, true⟩] 1 (-9) ⟨1, 100, 5, true⟩ rfl

/-- Claim C7: cache expiry semantics — `set` stores the value with expiry
`now + ttl` seconds, overwriting unconditionally; `get` returns the stored
value exactly when an entry exists and `now` is not past its expiry, and on
a stale entry returns absent and deletes the entry; an entry is never
returned once `now > expiry`; `has` follows the same expiry semantics as
`get`. -/
theorem cache_expiry_semantics (α : Type) (c : EntryMap α) (now : Nat) (k : String)
    (v : α) (ttl : Nat) :
    mapGet (CacheService.set c now k v ttl) k = some (v, now + ttl * 1000) ∧
    (∀ w e, mapGet c k = some (w, e) → ¬ now > e → CacheService.get c now k = (some w, c)) ∧
    (∀ w e, mapGet c k = some (w, e) → now > e →
      CacheService.get c now k = (none, CacheService.delete c k) ∧
      mapGet (CacheService.get c now k).2 k = none) ∧
    (mapGet c k = none → CacheService.get c now k = (none, c)) ∧
    (∀ w, (CacheService.get c now k).1 = some w → ∃ e, mapGet c k = some (w, e) ∧ now ≤ e) ∧
    CacheService.has c now k = ((CacheService.get c now k).1.isSome, (CacheService.get c now k).2) := by
  refine ⟨?_, ?_, ?_, ?_, ?_, ?_⟩
  · exact mapGet_mapSet_self c k (v, now + ttl * 1000)
  · intro w e hm ht
    simp [CacheService.get, hm, ht]
  · intro w e hm ht
    constructor
    · simp [CacheService.get, CacheService.delete, hm, ht]
    · simp [CacheService.get, hm, ht, mapGet_mapDelete_self]
  · intro hm
    simp [CacheService.get, hm]
  · intro w hw
    cases hm : mapGet c k with
    | none => simp [CacheService.get, hm] at hw
    | some item =>
      by_cases ht : now > item.2
      · simp [CacheService.get, hm, ht] at hw
      · simp only [CacheService.get, hm] at hw
        rw [if_neg ht] at hw
        simp only [Option.some.injEq] at hw
        exact ⟨item.2, by rw [← hw], le_of_not_lt ht⟩
  · cases hm : mapGet c k with
    | none => simp [CacheService.get, CacheService.has, hm]
    | some item =>
      by_cases ht : now > item.2
      · simp [CacheService.get, CacheService.has, hm, ht]
      · simp [CacheService.get, CacheService.has, hm, ht]

/-- Witness for C7 at concrete inputs: a fresh entry is stored with expiry
1000 ms, read back before expiry, treated as absent and evicted one
millisecond after expiry, and `has` agrees with `get` there. -/
theorem cache_expiry_semantics_witness :
    mapGet (CacheService.set ([] : EntryMap Nat) 0 "k" 7 1) "k" = some (7, 0 + 1 * 1000) ∧
    CacheService.get [("k", (7 : Nat), 1000)] 500 "k" = (some 7, [("k", (7 : Nat), 1000)]) ∧
    CacheService.get [("k", (7 : Nat), 1000)] 1001 "k" =
      (none, CacheService.delete [("k", (7 : Nat), 1000)] "k") ∧
    CacheService.has [("k", (7 : Nat), 1000)] 1001 "k" =
      ((CacheService.get [("k", (7 : Nat), 1000)] 1001 "k").1.isSome,
       (CacheService.get [("k", (7 : Nat), 1000)] 1001 "k").2) :=
  ⟨(cache_expiry_semantics Nat [] 0 "k" 7 1).1,
   (cache_expiry_semantics Nat [("k", 7, 1000)] 500 "k" 7 1).2.1 7 1000 rfl (by decide),
   ((cache_expiry_semantics Nat [("k", 7, 1000)] 1001 "k" 7 1).2.2.1 7 1000 rfl (by decide)).1,
   (cache_expiry_semantics Nat [("k", 7, 1000)] 1001 "k" 7 1).2.2.2.2.2⟩

/-- Claim C2: order creation validates in order — user existence, then
product existence, then stock sufficiency — failing with `NotFound` for a
missing user, `NotFound` for a missing product, and the insufficient-stock
`BadRequest` carrying available and requested quantities; on every such
failure no order has been persisted and the product store is unchanged. -/
theorem create_validates_before_mutation (s : SysState) (userId productId : Nat)
    (quantity : Int) :
    ((CacheService.get s.cache s.now (userKey userId)).1 = none →
      findRow User.id s.users userId = none →
      (OrdersService.create s userId productId quantity).1 =
        .error (.notFoundException ("User with ID " ++ toString userId ++ " not found")) ∧
      (OrdersService.create s userId productId quantity).2.orders = s.orders ∧
      (OrdersService.create s userId productId quantity).2.products = s.products) ∧
    (∀ u, (UsersService.findOne s userId).1 = .ok u →
      findRow Product.id s.products productId = none →
      (OrdersService.create s userId productId quantity).1 =
        .error (.notFoundException ("Product with ID " ++ toString productId ++ " not found")) ∧
      (OrdersService.create s userId productId quantity).2.orders = s.orders ∧
      (OrdersService.create s userId productId quantity).2.products = s.products) ∧
    (∀ u P, (UsersService.findOne s userId).1 = .ok u →
      findRow Product.id s.products productId = some P →
      P.stock < quantity →
      (OrdersService.create s userId productId quantity).1 =
        .error (.badRequestException
          ("Insufficient stock. Available: " ++ toString P.stock ++
           ", Requested: " ++ toString quantity)) ∧
      (OrdersService.create s userId productId quantity).2.orders = s.orders ∧
      (OrdersService.create s userId productId quantity).2.products = s.products) := by
  refine ⟨?_, ?_, ?_⟩
  · intro hmiss habs
    have hto := usersFindOne_miss_absent s userId hmiss habs
    unfold OrdersService.create
    rw [hto]
    exact ⟨rfl, rfl, rfl⟩
  · intro u hu hp
    have hfr := usersFindOne_frame s userId
    rcases hf : UsersService.findOne s userId with ⟨r, s1⟩
    rw [hf] at hfr hu
    simp only at hfr hu
    subst hu
    unfold OrdersService.create
    rw [hf]
    have hfo : ProductsService.findOne s1.products productId =
        .error (.notFoundException ("Product with ID " ++ toString productId ++ " not found")) := by
      unfold ProductsService.findOne
      rw [hfr.2.1, hp]
    simp only [hfo]
    exact ⟨by trivial, hfr.2.2.1, hfr.2.1⟩
  · intro u P hu hp hq
    have hfr := usersFindOne_frame s userId
    rcases hf : UsersService.findOne s userId with ⟨r, s1⟩
    rw [hf] at hfr hu
    simp only at hfr hu
    subst hu
    unfold OrdersService.create
    rw [hf]
    have hfo : ProductsService.findOne s1.products productId = .ok P := by
      unfold ProductsService.findOne
      rw [hfr.2.1, hp]
    simp only [hfo, if_pos hq]
    exact ⟨by trivial, hfr.2.2.1, hfr.2.1⟩

/-- Witness for C2, the spec's Scenario B: a product with stock 2 and an
order for quantity 5 fail with the insufficient-stock error and leave the
order and product stores untouched. -/
theorem create_validates_before_mutation_witness :
    (OrdersService.create ⟨[⟨1, "a", false⟩], [⟨1, 100, 2, true⟩], [], [], 0, 2, 1⟩ 1 1 5).1 =
      .error (.badRequestException "Insufficient stock. Available: 2, Requested: 5") ∧
    (OrdersService.create ⟨[⟨1, "a", false⟩], [⟨1, 100, 2, true⟩], [], [], 0, 2, 1⟩ 1 1 5).2.orders
      = [] ∧
    (OrdersService.create ⟨[⟨1, "a", false⟩], [⟨1, 100, 2, true⟩], [], [], 0, 2, 1⟩ 1 1 5).2.products
      = [⟨1, 100, 2, true⟩] :=
  (create_validates_before_mutation ⟨[⟨1, "a", false⟩], [⟨1, 100, 2, true⟩], [], [], 0, 2, 1⟩
    1 1 5).2.2 ⟨1, "a", false⟩ ⟨1, 100, 2, true⟩ rfl rfl (by decide)

/-- Claim C4: `cancel` fails with `NotFound` when the order is absent, fails
with the invalid-transition `BadRequest` exactly when the order's status is
`delivered` ("Cannot cancel a delivered order") or `cancelled` ("Order is
already cancelled") leaving the whole state (hence the product stock)
unchanged; on success it increments the product stock by the order's
quantity and sets the status to `cancelled`, and a second `cancel` of the
same order then fails with the already-cancelled error without touching the
state again. -/
theorem cancel_spec (s : SysState) (id : Nat) :
    (findRow Order.id s.orders id = none →
      OrdersService.cancel s id =
        (.error (.notFoundException ("Order with ID " ++ toString id ++ " not found")), s)) ∧
    (∀ order, findRow Order.id s.orders id = some order → order.status = .delivered →
      OrdersService.cancel s id =
        (.error (.badRequestException "Cannot cancel a delivered order"), s)) ∧
    (∀ order, findRow Order.id s.orders id = some order → order.status = .cancelled →
      OrdersService.cancel s id =
        (.error (.badRequestException "Order is already cancelled"), s)) ∧
    (∀ m, (OrdersService.cancel s id).1 = .error (.badRequestException m) →
      ∃ order, findRow Order.id s.orders id = some order ∧
        (order.status = .delivered ∨ order.status = .cancelled)) ∧
    (∀ order product, findRow Order.id s.orders id = some order →
      order.status ≠ .delivered → order.status ≠ .cancelled →
      findRow Product.id s.products order.productId = some product →
      0 ≤ product.stock → 0 ≤ order.quantity →
      ∃ s2, OrdersService.cancel s id = (.ok { order with status := .cancelled }, s2) ∧
        findRow Product.id s2.products order.productId =
          some { product with stock := product.stock + order.quantity } ∧
        findRow Order.id s2.orders id = some { order with status := .cancelled } ∧
        OrdersService.cancel s2 id =
          (.error (.badRequestException "Order is already cancelled"), s2)) := by
  refine ⟨?_, ?_, ?_, ?_, ?_⟩
  · intro hfr
    have hfo : OrdersService.findOne s.orders id =
        .error (.notFoundException ("Order with ID " ++ toString id ++ " not found")) := by
      unfold OrdersService.findOne
      rw [hfr]
    unfold OrdersService.cancel
    rw [hfo]
  · intro order hfr hst
    have hfo : OrdersService.findOne s.orders id = .ok order := by
      unfold OrdersService.findOne
      rw [hfr]
    unfold OrdersService.cancel
    simp [hfo, hst]
  · intro order hfr hst
    have hfo : OrdersService.findOne s.orders id = .ok order := by
      unfold OrdersService.findOne
      rw [hfr]
    unfold OrdersService.cancel
    simp [hfo, hst]
  · intro m hm
    cases hfr : findRow Order.id s.orders id with
    | none =>
      have hfo : OrdersService.findOne s.orders id =
          .error (.notFoundException ("Order with ID " ++ toString id ++ " not found")) := by
        unfold OrdersService.findOne
        rw [hfr]
      unfold OrdersService.cancel at hm
      rw [hfo] at hm
      simp at hm
    | some order =>
      refine ⟨order, rfl, ?_⟩
      have hfo : OrdersService.findOne s.orders id = .ok order := by
        unfold OrdersService.findOne
        rw [hfr]
      unfold OrdersService.cancel at hm
      simp only [hfo] at hm
      by_cases hd : order.status = OrderStatus.delivered
      · exact .inl hd
      · rw [if_neg hd] at hm
        by_cases hc : order.status = OrderStatus.cancelled
        · exact .inr hc
        · exfalso
          rw [if_neg hc] at hm
          cases hup : ProductsService.updateStock s.products order.productId order.quantity with
          | error e =>
            have he : ∃ msg, e = HttpError.notFoundException msg := by
              unfold ProductsService.updateStock ProductsService.findOne at hup
              cases hpf : findRow Product.id s.products order.productId with
              | none =>
                rw [hpf] at hup
                simp only [Except.error.injEq] at hup
                exact ⟨_, hup.symm⟩
              | some p =>
                rw [hpf] at hup
                simp at hup
            rcases he with ⟨msg, rfl⟩
            simp only [hup] at hm
            simp at hm
          | ok pr =>
            rcases pr with ⟨p2, db2⟩
            simp only [hup] at hm
            simp at hm
  · intro order product hfr hnd hnc hpf hst hqt
    have hfo : OrdersService.findOne s.orders id = .ok order := by
      unfold OrdersService.findOne
      rw [hfr]
    have hoid : order.id = id := findRow_key_eq Order.id s.orders id order hfr
    have hpid : product.id = order.productId :=
      findRow_key_eq Product.id s.products order.productId product hpf
    have hfop : ProductsService.findOne s.products order.productId = .ok product := by
      unfold ProductsService.findOne
      rw [hpf]
    have hnneg : ¬ (product.stock + order.quantity < 0) := by omega
    have hup : ProductsService.updateStock s.products order.productId order.quantity =
        .ok ({ product with stock := product.stock + order.quantity },
          saveRow Product.id s.products { product with stock := product.stock + order.quantity }) := by
      unfold ProductsService.updateStock
      rw [hfop]
      simp only [if_neg hnneg]
    have h5 : findRow Product.id
        (saveRow Product.id s.products { product with stock := product.stock + order.quantity })
        order.productId = some { product with stock := product.stock + order.quantity } := by
      rw [← hpid]
      exact findRow_saveRow_self Product.id s.products _
    have h6 : findRow Order.id (saveRow Order.id s.orders { order with status := .cancelled }) id
        = some { order with status := .cancelled } := by
      rw [← hoid]
      exact findRow_saveRow_self Order.id s.orders _
    have hfo2 : OrdersService.findOne
        (saveRow Order.id s.orders { order with status := .cancelled }) id =
        .ok { order with status := .cancelled } := by
      unfold OrdersService.findOne
      rw [h6]
    have hcan : OrdersService.cancel s id =
        (.ok { order with status := .cancelled },
         { s with
           products := saveRow Product.id s.products
             { product with stock := product.stock + order.quantity },
           orders := saveRow Order.id s.orders { order with status := .cancelled } }) := by
      unfold OrdersService.cancel
      simp only [hfo, if_neg hnd, if_neg hnc, hup]
    refine ⟨_, hcan, h5, h6, ?_⟩
    unfold OrdersService.cancel
    simp only [hfo2]
    simp

/-- Witness for C4: cancelling a pending order of quantity 3 restores the
product stock from 5 to 8 and marks the order cancelled; the second cancel
fails with the already-cancelled error and changes nothing; cancelling a
delivered order fails with the delivered error and leaves the state
unchanged. -/
theorem cancel_spec_witness :
    (∃ s2, OrdersService.cancel
        ⟨[], [⟨1, 100, 5, true⟩], [⟨1, 1, 1, 3, 300, .pending⟩], [], 0, 1, 2⟩ 1 =
        (.ok ⟨1, 1, 1, 3, 300, .cancelled⟩, s2) ∧
      findRow Product.id s2.products 1 = some ⟨1, 100, 8, true⟩ ∧
      findRow Order.id s2.orders 1 = some ⟨1, 1, 1, 3, 300, .cancelled⟩ ∧
      OrdersService.cancel s2 1 =
        (.error (.badRequestException "Order is already cancelled"), s2)) ∧
    OrdersService.cancel
        ⟨[], [⟨1, 100, 5, true⟩], [⟨1, 1, 1, 3, 300, .delivered⟩], [], 0, 1, 2⟩ 1 =
      (.error (.badRequestException "Cannot cancel a delivered order"),
       ⟨[], [⟨1, 100, 5, true⟩], [⟨1, 1, 1, 3, 300, .delivered⟩], [], 0, 1, 2⟩) :=
  ⟨(cancel_spec ⟨[], [⟨1, 100, 5, true⟩], [⟨1, 1, 1, 3, 300, .pending⟩], [], 0, 1, 2⟩ 1).2.2.2.2
      ⟨1, 1, 1, 3, 300, .pending⟩ ⟨1, 100, 5, true⟩ rfl (by decide) (by decide) rfl
      (by decide) (by decide),
   (cancel_spec ⟨[], [⟨1, 100, 5, true⟩], [⟨1, 1, 1, 3, 300, .delivered⟩], [], 0, 1, 2⟩ 1).2.1
      ⟨1, 1, 1, 3, 300, .delivered⟩ rfl rfl⟩

/-- Counterexample to C3 as stated: `updateStatus` moves a delivered order
back to `pending` and persists it, so `delivered` is not terminal under
every operation of the system. -/
theorem updateStatus_escapes_delivered :
    (OrdersService.updateStatus
        ⟨[], [], [⟨1, 1, 1, 1, 10, .delivered⟩], [], 0, 1, 2⟩ 1 .pending).1 =
      .ok ⟨1, 1, 1, 1, 10, .pending⟩ ∧
    findRow Order.id (OrdersService.updateStatus
        ⟨[], [], [⟨1, 1, 1, 1, 10, .delivered⟩], [], 0, 1, 2⟩ 1 .pending).2.orders 1 =
      some ⟨1, 1, 1, 1, 10, .pending⟩ := by
  constructor <;> rfl

/-- Claim C3 (amended): `delivered` and `cancelled` are terminal with
respect to `cancel` — which rejects them with an invalid-transition
`BadRequest` and returns the state unchanged — and with respect to
`create`, which never modifies an existing order; but `updateStatus`
overwrites the status of any existing order, including delivered and
cancelled ones, with whatever status the caller requests. -/
theorem terminal_states_amended (s : SysState) (id : Nat) (order : Order)
    (hfr : findRow Order.id s.orders id = some order)
    (hterm : order.status = .delivered ∨ order.status = .cancelled) :
    (∃ m, OrdersService.cancel s id = (.error (.badRequestException m), s)) ∧
    (∀ userId productId quantity,
      findRow Order.id (OrdersService.create s userId productId quantity).2.orders id
        = some order) ∧
    (∀ st, (OrdersService.updateStatus s id st).1 = .ok { order with status := st }) := by
  have hfo : OrdersService.findOne s.orders id = .ok order := by
    unfold OrdersService.findOne
    rw [hfr]
  refine ⟨?_, ?_, ?_⟩
  · rcases hterm with h | h
    · refine ⟨"Cannot cancel a delivered order", ?_⟩
      unfold OrdersService.cancel
      simp [hfo, h]
    · refine ⟨"Order is already cancelled", ?_⟩
      unfold OrdersService.cancel
      simp [hfo, h]
  · intro userId productId quantity
    exact ordersCreate_orders_mono s userId productId quantity id order hfr
  · intro st
    unfold OrdersService.updateStatus
    simp [hfo]

/-- Witness for the amended C3 at a concrete delivered order. -/
theorem terminal_states_amended_witness :
    (∃ m, OrdersService.cancel ⟨[], [], [⟨1, 1, 1, 1, 10, .delivered⟩], [], 0, 1, 2⟩ 1 =
      (.error (.badRequestException m),
       ⟨[], [], [⟨1, 1, 1, 1, 10, .delivered⟩], [], 0, 1, 2⟩)) ∧
    findRow Order.id (OrdersService.create
        ⟨[], [], [⟨1, 1, 1, 1, 10, .delivered⟩], [], 0, 1, 2⟩ 5 7 2).2.orders 1
      = some ⟨1, 1, 1, 1, 10, .delivered⟩ ∧
    (OrdersService.updateStatus
        ⟨[], [], [⟨1, 1, 1, 1, 10, .delivered⟩], [], 0, 1, 2⟩ 1 .pending).1 =
      .ok ⟨1, 1, 1, 1, 10, .pending⟩ :=
  ⟨(terminal_states_amended ⟨[], [], [⟨1, 1, 1, 1, 10, .delivered⟩], [], 0, 1, 2⟩ 1
      ⟨1, 1, 1, 1, 10, .delivered⟩ rfl (.inl rfl)).1,
   (terminal_states_amended ⟨[], [], [⟨1, 1, 1, 1, 10, .delivered⟩], [], 0, 1, 2⟩ 1
      ⟨1, 1, 1, 1, 10, .delivered⟩ rfl (.inl rfl)).2.1 5 7 2,
   (terminal_states_amended ⟨[], [], [⟨1, 1, 1, 1, 10, .delivered⟩], [], 0, 1, 2⟩ 1
      ⟨1, 1, 1, 1, 10, .delivered⟩ rfl (.inl rfl)).2.2 .pending⟩

/-- Claim C5: round-trip — for a product with stock `S` and a quantity `Q`
with `1 ≤ Q ≤ S`, a successful `create` leaves the product's persisted
stock at `S - Q`, and cancelling the created order restores it to `S`. -/
theorem create_cancel_roundtrip (s : SysState) (userId productId : Nat)
    (quantity : Int) (P : Product) (u : User)
    (hu : (UsersService.findOne s userId).1 = .ok u)
    (hp : findRow Product.id s.products productId = some P)
    (h1 : 1 ≤ quantity) (h2 : quantity ≤ P.stock)
    (hfresh : findRow Order.id s.orders s.nextOrderId = none) :
    ∃ order s2 s3,
      OrdersService.create s userId productId quantity = (.ok order, s2) ∧
      order.status = .pending ∧
      order.quantity = quantity ∧
      findRow Product.id s2.products productId = some { P with stock := P.stock - quantity } ∧
      OrdersService.cancel s2 order.id = (.ok { order with status := .cancelled }, s3) ∧
      findRow Product.id s3.products productId = some P := by
  have hfr := usersFindOne_frame s userId
  rcases hf : UsersService.findOne s userId with ⟨r, s1⟩
  rw [hf] at hfr hu
  simp only at hfr hu
  subst hu
  obtain ⟨hfu, hfp, hfor, hfnow, hfnu, hfno⟩ := hfr
  have hpid : P.id = productId := findRow_key_eq Product.id s.products productId P hp
  have hfop : ProductsService.findOne s1.products productId = .ok P := by
    unfold ProductsService.findOne
    rw [hfp, hp]
  have hq : ¬ (P.stock < quantity) := not_lt.mpr h2
  have hnneg : ¬ (P.stock + -quantity < 0) := by omega
  have hfopP : ProductsService.findOne s1.products P.id = .ok P := by
    rw [hpid]
    exact hfop
  have hup1 : ProductsService.updateStock s1.products P.id (-quantity) =
      .ok ({ P with stock := P.stock + -quantity },
        saveRow Product.id s1.products { P with stock := P.stock + -quantity }) := by
    unfold ProductsService.updateStock
    rw [hfopP]
    simp only [if_neg hnneg]
  have hcreate : OrdersService.create s userId productId quantity =
      (.ok ({ id := s1.nextOrderId, userId := userId, productId := productId,
              quantity := quantity, totalPrice := P.price * quantity,
              status := .pending } : Order),
       { s1 with
         products := saveRow Product.id s1.products { P with stock := P.stock + -quantity },
         orders := s1.orders ++
           [{ id := s1.nextOrderId, userId := userId, productId := productId,
              quantity := quantity, totalPrice := P.price * quantity,
              status := .pending }],
         nextOrderId := s1.nextOrderId + 1 }) := by
    unfold OrdersService.create
    simp only [hf, hfop, if_neg hq, hup1]
  have h5 : findRow Product.id
      (saveRow Product.id s1.products { P with stock := P.stock + -quantity }) productId =
      some { P with stock := P.stock + -quantity } := by
    rw [← hpid]
    exact findRow_saveRow_self Product.id s1.products _
  have hfind2 : findRow Order.id
      (s1.orders ++
        [({ id := s1.nextOrderId, userId := userId, productId := productId,
            quantity := quantity, totalPrice := P.price * quantity,
            status := .pending } : Order)])
      s1.nextOrderId =
      some { id := s1.nextOrderId, userId := userId, productId := productId,
             quantity := quantity, totalPrice := P.price * quantity,
             status := .pending } := by
    unfold findRow
    rw [List.find?_append]
    have hnone : List.find? (fun x => Order.id x == s1.nextOrderId) s1.orders = none := by
      rw [hfor, hfno]
      exact hfresh
    rw [hnone]
    simp [List.find?]
  have hfo2 : OrdersService.findOne
      (s1.orders ++
        [({ id := s1.nextOrderId, userId := userId, productId := productId,
            quantity := quantity, totalPrice := P.price * quantity,
            status := .pending } : Order)])
      s1.nextOrderId =
      .ok { id := s1.nextOrderId, userId := userId, productId := productId,
            quantity := quantity, totalPrice := P.price * quantity,
            status := .pending } := by
    unfold OrdersService.findOne
    rw [hfind2]
  have hfop3 : ProductsService.findOne
      (saveRow Product.id s1.products { P with stock := P.stock + -quantity }) productId =
      .ok { P with stock := P.stock + -quantity } := by
    unfold ProductsService.findOne
    rw [h5]
  have hnneg2 : ¬ (P.stock + -quantity + quantity < 0) := by omega
  have hup2 : ProductsService.updateStock
      (saveRow Product.id s1.products { P with stock := P.stock + -quantity })
      productId quantity =
      .ok ({ P with stock := P.stock + -quantity + quantity },
        saveRow Product.id
          (saveRow Product.id s1.products { P with stock := P.stock + -quantity })
          { P with stock := P.stock + -quantity + quantity }) := by
    unfold ProductsService.updateStock
    rw [hfop3]
    simp only [if_neg hnneg2]
  have hPeq : ({ P with stock := P.stock + -quantity + quantity } : Product) = P := by
    have hs : P.stock + -quantity + quantity = P.stock := by ring
    rw [hs]
  have h6 : findRow Product.id
      (saveRow Product.id
        (saveRow Product.id s1.products { P with stock := P.stock + -quantity })
        { P with stock := P.stock + -quantity + quantity }) productId = some P := by
    rw [hPeq, ← hpid]
    exact findRow_saveRow_self Product.id _ P
  have hcancel : OrdersService.cancel
      ({ s1 with
         products := saveRow Product.id s1.products { P with stock := P.stock + -quantity },
         orders := s1.orders ++
           [{ id := s1.nextOrderId, userId := userId, productId := productId,
              quantity := quantity, totalPrice := P.price * quantity,
              status := .pending }],
         nextOrderId := s1.nextOrderId + 1 }) s1.nextOrderId =
      (.ok ({ id := s1.nextOrderId, userId := userId, productId := productId,
              quantity := quantity, totalPrice := P.price * quantity,
              status := .cancelled } : Order),
       { s1 with
         products := saveRow Product.id
           (saveRow Product.id s1.products { P with stock := P.stock + -quantity })
           { P with stock := P.stock + -quantity + quantity },
         orders := saveRow Order.id
           (s1.orders ++
             [{ id := s1.nextOrderId, userId := userId, productId := productId,
                quantity := quantity, totalPrice := P.price * quantity,
                status := .pending }])
           ({ id := s1.nextOrderId, userId := userId, productId := productId,
              quantity := quantity, totalPrice := P.price * quantity,
              status := .cancelled } : Order),
         nextOrderId := s1.nextOrderId + 1 }) := by
    unfold OrdersService.cancel
    simp [hfo2, hup2]
  refine ⟨_, _, _, hcreate, rfl, rfl, ?_, hcancel, h6⟩
  rw [sub_eq_add_neg]
  exact h5

/-- Witness for C5, the spec's Scenario A shape: stock 5, order quantity 3 —
create leaves stock 2, cancel restores stock 5. -/
theorem create_cancel_roundtrip_witness :
    ∃ order s2 s3,
      OrdersService.create ⟨[⟨1, "a", false⟩], [⟨1, 100, 5, true⟩], [], [], 0, 2, 1⟩ 1 1 3 =
        (.ok order, s2) ∧
      order.status = .pending ∧
      order.quantity = 3 ∧
      findRow Product.id s2.products 1 = some ⟨1, 100, 2, true⟩ ∧
      OrdersService.cancel s2 order.id = (.ok { order with status := .cancelled }, s3) ∧
      findRow Product.id s3.products 1 = some ⟨1, 100, 5, true⟩ :=
  create_cancel_roundtrip ⟨[⟨1, "a", false⟩], [⟨1, 100, 5, true⟩], [], [], 0, 2, 1⟩ 1 1 3
    ⟨1, 100, 5, true⟩ ⟨1, "a", false⟩ rfl rfl (by decide) (by decide) rfl

theorem ordersFindOne_ok (db : List Order) (id : Nat) (o : Order)
    (h : OrdersService.findOne db id = .ok o) : findRow Order.id db id = some o := by
  unfold OrdersService.findOne at h
  cases hfr : findRow Order.id db id with
  | none => rw [hfr] at h; simp at h
  | some o2 =>
    rw [hfr] at h
    simp only [Except.ok.injEq] at h
    rw [h]

/-- Claim C6: an order's `totalPrice` is the product's unit price at the
instant of creation times the quantity, and no later operation —
`updateStatus`, `cancel`, or a product update — recomputes or modifies an
existing order's `totalPrice`. -/
theorem totalPrice_snapshot (s : SysState) :
    (∀ userId productId quantity order s2 P,
      findRow Product.id s.products productId = some P →
      OrdersService.create s userId productId quantity = (.ok order, s2) →
      order.totalPrice = P.price * quantity) ∧
    (∀ id st i,
      (findRow Order.id (OrdersService.updateStatus s id st).2.orders i).map Order.totalPrice =
        (findRow Order.id s.orders i).map Order.totalPrice) ∧
    (∀ id i,
      (findRow Order.id (OrdersService.cancel s id).2.orders i).map Order.totalPrice =
        (findRow Order.id s.orders i).map Order.totalPrice) ∧
    (∀ id dto, (sysUpdateProduct s id dto).2.orders = s.orders) := by
  refine ⟨?_, ?_, ?_, ?_⟩
  · intro userId productId quantity order s2 P hP hcr
    have hfp := (usersFindOne_frame s userId).2.1
    rcases hf : UsersService.findOne s userId with ⟨r, s1⟩
    rw [hf] at hfp
    simp only at hfp
    unfold OrdersService.create at hcr
    rw [hf] at hcr
    cases r with
    | error e => simp at hcr
    | ok u =>
      have hfop : ProductsService.findOne s1.products productId = .ok P := by
        unfold ProductsService.findOne
        rw [hfp, hP]
      simp only [hfop] at hcr
      by_cases hq : P.stock < quantity
      · rw [if_pos hq] at hcr
        simp at hcr
      · rw [if_neg hq] at hcr
        cases hup : ProductsService.updateStock s1.products P.id (-quantity) with
        | error e2 =>
          simp only [hup] at hcr
          simp at hcr
        | ok pr =>
          rcases pr with ⟨pp, db2⟩
          simp only [hup] at hcr
          simp only [Prod.mk.injEq, Except.ok.injEq] at hcr
          obtain ⟨ho, hs⟩ := hcr
          subst ho
          rfl
  · intro id st i
    cases hfo : OrdersService.findOne s.orders id with
    | error e =>
      have hupd : (OrdersService.updateStatus s id st).2.orders = s.orders := by
        unfold OrdersService.updateStatus
        simp [hfo]
      rw [hupd]
    | ok order =>
      have hfr := ordersFindOne_ok s.orders id order hfo
      have hoid : order.id = id := findRow_key_eq Order.id s.orders id order hfr
      have hupd : (OrdersService.updateStatus s id st).2.orders =
          saveRow Order.id s.orders { order with status := st } := by
        unfold OrdersService.updateStatus
        simp [hfo]
      rw [hupd]
      by_cases hii : i = id
      · subst hii
        have h1 : findRow Order.id (saveRow Order.id s.orders { order with status := st }) i =
            some { order with status := st } := by
          rw [← hoid]
          exact findRow_saveRow_self Order.id s.orders _
        rw [h1, hfr]
        rfl
      · rw [findRow_saveRow_other Order.id s.orders { order with status := st } i
          (fun hcon => hii (hcon.trans hoid))]
  · intro id i
    cases hfo : OrdersService.findOne s.orders id with
    | error e =>
      have hcv : (OrdersService.cancel s id).2.orders = s.orders := by
        unfold OrdersService.cancel
        simp [hfo]
      rw [hcv]
    | ok order =>
      have hfr := ordersFindOne_ok s.orders id order hfo
      have hoid : order.id = id := findRow_key_eq Order.id s.orders id order hfr
      by_cases hd : order.status = OrderStatus.delivered
      · have hcv : (OrdersService.cancel s id).2.orders = s.orders := by
          unfold OrdersService.cancel
          simp [hfo, hd]
        rw [hcv]
      · by_cases hc : order.status = OrderStatus.cancelled
        · have hcv : (OrdersService.cancel s id).2.orders = s.orders := by
            unfold OrdersService.cancel
            simp [hfo, hd, hc]
          rw [hcv]
        · cases hup : ProductsService.updateStock s.products order.productId order.quantity with
          | error e2 =>
            have hcv : (OrdersService.cancel s id).2.orders = s.orders := by
              unfold OrdersService.cancel
              simp [hfo, hd, hc, hup]
            rw [hcv]
          | ok pr =>
            rcases pr with ⟨pp, db2⟩
            have hcv : (OrdersService.cancel s id).2.orders =
                saveRow Order.id s.orders { order with status := .cancelled } := by
              unfold OrdersService.cancel
              simp [hfo, hd, hc, hup]
            rw [hcv]
            by_cases hii : i = id
            · subst hii
              have h1 : findRow Order.id
                  (saveRow Order.id s.orders { order with status := .cancelled }) i =
                  some { order with status := .cancelled } := by
                rw [← hoid]
                exact findRow_saveRow_self Order.id s.orders _
              rw [h1, hfr]
              rfl
            · rw [findRow_saveRow_other Order.id s.orders { order with status := .cancelled } i
                (fun hcon => hii (hcon.trans hoid))]
  · intro id dto
    unfold sysUpdateProduct
    cases hpu : ProductsService.update s.products id dto with
    | error e => rfl
    | ok pr =>
      rcases pr with ⟨pp, db2⟩
      rfl

/-- Witness for C6, the spec's Scenario A: price 20, quantity 3 gives
`totalPrice = 60`; a status update and a later price change leave the
stored order's `totalPrice` untouched. -/
theorem totalPrice_snapshot_witness :
    (⟨1, 1, 1, 3, 60, .pending⟩ : Order).totalPrice = 20 * 3 ∧
    (findRow Order.id (OrdersService.updateStatus
        ⟨[], [⟨1, 20, 10, true⟩], [⟨1, 1, 1, 3, 60, .pending⟩], [], 0, 2, 2⟩
        1 .shipped).2.orders 1).map Order.totalPrice =
      (findRow Order.id
        ([⟨1, 1, 1, 3, 60, .pending⟩] : List Order) 1).map Order.totalPrice ∧
    (sysUpdateProduct ⟨[], [⟨1, 20, 10, true⟩], [⟨1, 1, 1, 3, 60, .pending⟩], [], 0, 2, 2⟩
        1 { price := some 999 }).2.orders = [⟨1, 1, 1, 3, 60, .pending⟩] :=
  ⟨(totalPrice_snapshot ⟨[⟨1, "a", false⟩], [⟨1, 20, 10, true⟩], [], [], 0, 2, 1⟩).1
      1 1 3 ⟨1, 1, 1, 3, 60, .pending⟩
      (OrdersService.create ⟨[⟨1, "a", false⟩], [⟨1, 20, 10, true⟩], [], [], 0, 2, 1⟩ 1 1 3).2
      ⟨1, 20, 10, true⟩ rfl rfl,
   (totalPrice_snapshot ⟨[], [⟨1, 20, 10, true⟩], [⟨1, 1, 1, 3, 60, .pending⟩], [], 0, 2, 2⟩).2.1
      1 .shipped 1,
   (totalPrice_snapshot ⟨[], [⟨1, 20, 10, true⟩], [⟨1, 1, 1, 3, 60, .pending⟩], [], 0, 2, 2⟩).2.2.2
      1 { price := some 999 }⟩

/-- Counterexample to C8 as stated: a successful order creation mutates the
product's persisted stock (5 to 3) yet removes nothing from the cache — an
entry stored under the product's key is still present afterwards.  The
products service has no cache access, so no mutation path invalidates a
product cache entry. -/
theorem create_does_not_invalidate_product_cache :
    (OrdersService.create
        ⟨[⟨1, "a", false⟩], [⟨1, 100, 5, true⟩], [],
         [("product:1", ⟨9, "x", false⟩, 999999999999)], 0, 2, 1⟩ 1 1 2).1 =
      .ok ⟨1, 1, 1, 2, 200, .pending⟩ ∧
    findRow Product.id (OrdersService.create
        ⟨[⟨1, "a", false⟩], [⟨1, 100, 5, true⟩], [],
         [("product:1", ⟨9, "x", false⟩, 999999999999)], 0, 2, 1⟩ 1 1 2).2.products 1 =
      some ⟨1, 100, 3, true⟩ ∧
    mapGet (OrdersService.create
        ⟨[⟨1, "a", false⟩], [⟨1, 100, 5, true⟩], [],
         [("product:1", ⟨9, "x", false⟩, 999999999999)], 0, 2, 1⟩ 1 1 2).2.cache "product:1" =
      some (⟨9, "x", false⟩, 999999999999) := by
  refine ⟨rfl, rfl, rfl⟩

/-- Claim C8 (amended): product mutations perform no cache invalidation —
the stock-adjust and product-update routes carry the cache through
untouched, and a successful order creation changes the cache only through
the user lookup, so every cache entry under a key other than the order's
user lookup key (in particular any entry under the product's key) is
preserved, never removed. -/
theorem no_product_cache_invalidation (s : SysState) (userId productId : Nat)
    (quantity : Int) (k : String) (hk : k ≠ userKey userId) :
    mapGet (OrdersService.create s userId productId quantity).2.cache k = mapGet s.cache k ∧
    (∀ id q, (sysUpdateStock s id q).2.cache = s.cache) ∧
    (∀ id dto, (sysUpdateProduct s id dto).2.cache = s.cache) := by
  refine ⟨?_, ?_, ?_⟩
  · rw [ordersCreate_cache]
    exact usersFindOne_cache_other s userId k hk
  · intro id q
    unfold sysUpdateStock
    cases h : ProductsService.updateStock s.products id q with
    | error e => rfl
    | ok pr =>
      rcases pr with ⟨pp, db2⟩
      rfl
  · intro id dto
    unfold sysUpdateProduct
    cases h : ProductsService.update s.products id dto with
    | error e => rfl
    | ok pr =>
      rcases pr with ⟨pp, db2⟩
      rfl

/-- Witness for the amended C8 at the counterexample's state and the
product's cache key. -/
theorem no_product_cache_invalidation_witness :
    mapGet (OrdersService.create
        ⟨[⟨1, "a", false⟩], [⟨1, 100, 5, true⟩], [],
         [("product:1", ⟨9, "x", false⟩, 999999999999)], 0, 2, 1⟩ 1 1 2).2.cache "product:1" =
      mapGet [("product:1", (⟨9, "x", false⟩ : User), 999999999999)] "product:1" ∧
    (sysUpdateStock
        ⟨[⟨1, "a", false⟩], [⟨1, 100, 5, true⟩], [],
         [("product:1", ⟨9, "x", false⟩, 999999999999)], 0, 2, 1⟩ 1 (-2)).2.cache =
      [("product:1", ⟨9, "x", false⟩, 999999999999)] ∧
    (sysUpdateProduct
        ⟨[⟨1, "a", false⟩], [⟨1, 100, 5, true⟩], [],
         [("product:1", ⟨9, "x", false⟩, 999999999999)], 0, 2, 1⟩ 1
        { price := some 7 }).2.cache =
      [("product:1", ⟨9, "x", false⟩, 999999999999)] :=
  ⟨(no_product_cache_invalidation
      ⟨[⟨1, "a", false⟩], [⟨1, 100, 5, true⟩], [],
       [("product:1", ⟨9, "x", false⟩, 999999999999)], 0, 2, 1⟩ 1 1 2 "product:1" (by decide)).1,
   (no_product_cache_invalidation
      ⟨[⟨1, "a", false⟩], [⟨1, 100, 5, true⟩], [],
       [("product:1", ⟨9, "x", false⟩, 999999999999)], 0, 2, 1⟩ 1 1 2 "product:1"
      (by decide)).2.1 1 (-2),
   (no_product_cache_invalidation
      ⟨[⟨1, "a", false⟩], [⟨1, 100, 5, true⟩], [],
       [("product:1", ⟨9, "x", false⟩, 999999999999)], 0, 2, 1⟩ 1 1 2 "product:1"
      (by decide)).2.2 1 { price := some 7 }⟩

theorem cacheGet_some_mapGet (c : EntryMap α) (now : Nat) (k : String) (v : α)
    (h : (CacheService.get c now k).1 = some v) : ∃ e, mapGet c k = some (v, e) := by
  cases hm : mapGet c k with
  | none => simp [CacheService.get, hm] at h
  | some item =>
    by_cases ht : now > item.2
    · simp [CacheService.get, hm, ht] at h
    · simp only [CacheService.get, hm] at h
      rw [if_neg ht] at h
      simp only [Option.some.injEq] at h
      exact ⟨item.2, by rw [← h]⟩

theorem usersFindOne_returns (s : SysState) (id : Nat) (u : User)
    (hcache : mapGet s.cache (userKey id) = none)
    (hdb : findRow User.id s.users id = some u) :
    (UsersService.findOne s id).1 = .ok u := by
  have hmiss : (CacheService.get s.cache s.now (userKey id)).1 = none := by
    simp [CacheService.get, hcache]
  rw [usersFindOne_miss_found s id u hmiss hdb]

/-- Counterexample to C9 as stated: `UsersService.create` writes a cache
entry eagerly — starting from an empty cache, with no lookup performed, the
created user's entry is present afterwards with TTL 3600. -/
theorem create_populates_cache_eagerly :
    mapGet (⟨[], [], [], [], 0, 1, 1⟩ : SysState).cache (userKey 1) = none ∧
    mapGet (UsersService.create ⟨[], [], [], [], 0, 1, 1⟩ ⟨"a"⟩).2.cache (userKey 1) =
      some (⟨1, "a", false⟩, 3600000) :=
  ⟨rfl, rfl⟩

/-- Claim C9 (amended): the user lookup cache is populated lazily on a
`findOne` miss (TTL 3600), and a hit returns the cached user with no state
change at all; but `UsersService.create` additionally populates the cache
eagerly, storing the newly created user under its key with TTL 3600. -/
theorem cache_population_amended (s : SysState) (id : Nat) :
    (∀ u, (CacheService.get s.cache s.now (userKey id)).1 = some u →
      UsersService.findOne s id = (.ok u, s)) ∧
    (∀ u, (CacheService.get s.cache s.now (userKey id)).1 = none →
      findRow User.id s.users id = some u →
      UsersService.findOne s id =
        (.ok u, { s with cache := CacheService.set
                           (CacheService.get s.cache s.now (userKey id)).2
                           s.now (userKey id) u 3600 }) ∧
      mapGet (UsersService.findOne s id).2.cache (userKey id) =
        some (u, s.now + 3600 * 1000)) ∧
    (∀ dto, mapGet (UsersService.create s dto).2.cache (userKey s.nextUserId) =
      some ((UsersService.create s dto).1, s.now + 3600 * 1000)) := by
  refine ⟨?_, ?_, ?_⟩
  · intro u h
    exact usersFindOne_hit s id u h
  · intro u hmiss hdb
    have h1 := usersFindOne_miss_found s id u hmiss hdb
    refine ⟨h1, ?_⟩
    rw [h1]
    exact mapGet_mapSet_self _ _ _
  · intro dto
    unfold UsersService.create
    exact mapGet_mapSet_self _ _ _

/-- Witness for the amended C9: a cache hit returns the cached user and
leaves the state unchanged; `create` eagerly caches the new user. -/
theorem cache_population_amended_witness :
    UsersService.findOne ⟨[], [], [], [("user:1", ⟨1, "a", false⟩, 5000)], 100, 2, 1⟩ 1 =
      (.ok ⟨1, "a", false⟩, ⟨[], [], [], [("user:1", ⟨1, "a", false⟩, 5000)], 100, 2, 1⟩) ∧
    mapGet (UsersService.create ⟨[], [], [], [], 0, 1, 1⟩ ⟨"b"⟩).2.cache (userKey 1) =
      some ((UsersService.create ⟨[], [], [], [], 0, 1, 1⟩ ⟨"b"⟩).1, 0 + 3600 * 1000) :=
  ⟨(cache_population_amended ⟨[], [], [], [("user:1", ⟨1, "a", false⟩, 5000)], 100, 2, 1⟩ 1).1
      ⟨1, "a", false⟩ rfl,
   (cache_population_amended ⟨[], [], [], [], 0, 1, 1⟩ 1).2.2 ⟨"b"⟩⟩

/-- Claim C10: after a successful `UsersService.remove` (a soft delete that
sets `isDeleted = true` and deletes the cache entry), a subsequent
`findOne` on the same id still returns the user — now with
`isDeleted = true` — rather than failing with `NotFound`.  The hypothesis
`hwf` states the cache well-formedness every reachable state satisfies: an
entry stored under `user:{id}` holds a user whose id is `id`. -/
theorem soft_deleted_user_still_found (s : SysState) (id : Nat)
    (hwf : ∀ u e, mapGet s.cache (userKey id) = some (u, e) → u.id = id)
    (hok : (UsersService.remove s id).1 = .ok ()) :
    ∃ u, (UsersService.findOne (UsersService.remove s id).2 id).1 = .ok u ∧
      u.isDeleted = true := by
  cases hgo : (CacheService.get s.cache s.now (userKey id)).1 with
  | some cached =>
    have hfull := usersFindOne_hit s id cached hgo
    obtain ⟨e, hmap⟩ := cacheGet_some_mapGet s.cache s.now (userKey id) cached hgo
    have hid : cached.id = id := hwf cached e hmap
    have hrem : UsersService.remove s id =
        (.ok (), { s with
          users := saveRow User.id s.users { cached with isDeleted := true },
          cache := CacheService.delete s.cache (userKey id) }) := by
      unfold UsersService.remove
      simp only [hfull]
    refine ⟨{ cached with isDeleted := true }, ?_, rfl⟩
    rw [hrem]
    refine usersFindOne_returns _ id _ ?_ ?_
    · exact mapGet_mapDelete_self s.cache (userKey id)
    · show findRow User.id (saveRow User.id s.users { cached with isDeleted := true }) id =
        some { cached with isDeleted := true }
      rw [← hid]
      exact findRow_saveRow_self User.id s.users { cached with isDeleted := true }
  | none =>
    cases hdb : findRow User.id s.users id with
    | none =>
      have hfull := usersFindOne_miss_absent s id hgo hdb
      have hrem : (UsersService.remove s id).1 =
          .error (.notFoundException ("User with ID " ++ toString id ++ " not found")) := by
        unfold UsersService.remove
        simp only [hfull]
      rw [hrem] at hok
      simp at hok
    | some user =>
      have hfull := usersFindOne_miss_found s id user hgo hdb
      have hid : user.id = id := findRow_key_eq User.id s.users id user hdb
      have hrem : UsersService.remove s id =
          (.ok (), { s with
            users := saveRow User.id s.users { user with isDeleted := true },
            cache := CacheService.delete
                       (CacheService.set (CacheService.get s.cache s.now (userKey id)).2
                         s.now (userKey id) user 3600)
                       (userKey id) }) := by
        unfold UsersService.remove
        simp only [hfull]
      refine ⟨{ user with isDeleted := true }, ?_, rfl⟩
      rw [hrem]
      refine usersFindOne_returns _ id _ ?_ ?_
      · exact mapGet_mapDelete_self _ (userKey id)
      · show findRow User.id (saveRow User.id s.users { user with isDeleted := true }) id =
          some { user with isDeleted := true }
        rw [← hid]
        exact findRow_saveRow_self User.id s.users { user with isDeleted := true }

/-- Witness for C10: removing user 1 then looking it up returns the user
with `isDeleted = true`. -/
theorem soft_deleted_user_still_found_witness :
    ∃ u, (UsersService.findOne
        (UsersService.remove ⟨[⟨1, "a", false⟩], [], [], [], 0, 2, 1⟩ 1).2 1).1 = .ok u ∧
      u.isDeleted = true :=
  soft_deleted_user_still_found ⟨[⟨1, "a", false⟩], [], [], [], 0, 2, 1⟩ 1
    (fun u e h => by simp [mapGet] at h) rfl
